import Mathlib

/-!
Shallow embedding of the Rust-Raytracer rendering core (`src/rendering.rs`,
`src/shape.rs`, dispatch traits of `src/traits.rs`) over exact arithmetic:
`f64` values are modelled as `ℝ`, `u8`/`u32` values as `ℕ`, and the one use of
`f64::INFINITY` (`DirectionalLight::get_distance`) as `⊤ : WithTop ℝ`.
Fallible operations keep their `Option` shape; the `assert!` guards of
`Camera::compute_prime_ray` are modelled by an `Option` result where `none`
stands for the panic.
-/

namespace Raytracer

/-- Modelled from the spec: the component `Vector3` lives in `src/vertors.rs`,
which is not among the provided source files.  Spec §3: a triple of
double-precision floats `(x, y, z)`, an immutable value type. -/
structure Vector3 where
  x : ℝ
  y : ℝ
  z : ℝ

namespace Vector3

/-- Modelled from the spec (§4.1 `add`): componentwise addition. -/
def add (v w : Vector3) : Vector3 := ⟨v.x + w.x, v.y + w.y, v.z + w.z⟩

/-- Modelled from the spec (§4.1 `sub`): componentwise subtraction. -/
def sub (v w : Vector3) : Vector3 := ⟨v.x - w.x, v.y - w.y, v.z - w.z⟩

/-- Modelled from the spec (§4.1 `negate`): componentwise negation. -/
def neg (v : Vector3) : Vector3 := ⟨-v.x, -v.y, -v.z⟩

/-- Modelled from the spec (§4.1 `scale(scalar)`): scaling by a scalar. -/
def scale (v : Vector3) (s : ℝ) : Vector3 := ⟨v.x * s, v.y * s, v.z * s⟩

/-- Modelled from the spec (§4.1 `dot`): the dot product. -/
def dot (v w : Vector3) : ℝ := v.x * w.x + v.y * w.y + v.z * w.z

/-- Modelled from the spec (§4.1 `length_sq`): the squared length. -/
def length_sq (v : Vector3) : ℝ := v.x * v.x + v.y * v.y + v.z * v.z

/-- Modelled from the spec (§4.1): `length = sqrt(length_sq)`. -/
noncomputable def length (v : Vector3) : ℝ := Real.sqrt v.length_sq

/-- Modelled from the spec (§4.1): `normalize = self.scale(1/length)`. -/
noncomputable def normalize (v : Vector3) : Vector3 := v.scale (1 / v.length)

/-- Modelled from the spec: `Vector3::zero`, the world origin `(0,0,0)` used by
`Camera::compute_prime_ray` (spec §4.2). -/
def zero : Vector3 := ⟨0, 0, 0⟩

instance : Add Vector3 := ⟨add⟩

instance : Sub Vector3 := ⟨sub⟩

instance : Neg Vector3 := ⟨neg⟩

instance : HMul Vector3 ℝ Vector3 := ⟨scale⟩

@[simp]
theorem add_def (v w : Vector3) : v + w = ⟨v.x + w.x, v.y + w.y, v.z + w.z⟩ := rfl

@[simp]
theorem sub_def (v w : Vector3) : v - w = ⟨v.x - w.x, v.y - w.y, v.z - w.z⟩ := rfl

@[simp]
theorem neg_def (v : Vector3) : -v = ⟨-v.x, -v.y, -v.z⟩ := rfl

@[simp]
theorem smul_def (v : Vector3) (s : ℝ) : v * s = ⟨v.x * s, v.y * s, v.z * s⟩ := rfl

theorem length_sq_nonneg (v : Vector3) : 0 ≤ v.length_sq := by
  have hx := mul_self_nonneg v.x
  have hy := mul_self_nonneg v.y
  have hz := mul_self_nonneg v.z
  unfold length_sq; linarith

end Vector3

/-- Embeds `Color` (src/rendering.rs): four unsigned 8-bit channels, modelled
as naturals. -/
structure Color where
  r : ℕ
  g : ℕ
  b : ℕ
  a : ℕ
deriving DecidableEq

namespace Color

/-- Embeds `Color::new`. -/
def new (r g b a : ℕ) : Color := ⟨r, g, b, a⟩

/-- Embeds `Color::black`: `{ r: 0, g: 0, b: 0, a: 255 }`. -/
def black : Color := ⟨0, 0, 0, 255⟩

/-- Embeds `impl AddAssign for Color` (src/rendering.rs lines 31-54): per
channel, if the widened sum is below 255 keep it, otherwise set 255. -/
def add_assign (c rhs : Color) : Color :=
  ⟨if c.r + rhs.r < 255 then c.r + rhs.r else 255,
   if c.g + rhs.g < 255 then c.g + rhs.g else 255,
   if c.b + rhs.b < 255 then c.b + rhs.b else 255,
   if c.a + rhs.a < 255 then c.a + rhs.a else 255⟩

end Color

/-- C7: the `+=` operation on `Color` is saturating per channel: each of the
four resulting channels equals the minimum of 255 and the exact integer sum of
the operand channels (clamped, never wrapping); in particular
`Color{250,0,0,0} += Color{10,0,0,0}` yields `{255,0,0,0}`. -/
theorem color_add_assign_saturates :
    (∀ c₁ c₂ : Color,
      (c₁.add_assign c₂).r = min 255 (c₁.r + c₂.r) ∧
      (c₁.add_assign c₂).g = min 255 (c₁.g + c₂.g) ∧
      (c₁.add_assign c₂).b = min 255 (c₁.b + c₂.b) ∧
      (c₁.add_assign c₂).a = min 255 (c₁.a + c₂.a)) ∧
    Color.add_assign ⟨250, 0, 0, 0⟩ ⟨10, 0, 0, 0⟩ = ⟨255, 0, 0, 0⟩ := by
  constructor
  · intro c₁ c₂
    refine ⟨?_, ?_, ?_, ?_⟩ <;> simp only [Color.add_assign] <;> split <;> omega
  · rfl

/-- Embeds the constant `SHADOW_BIAS: f64 = 1e-13` (src/rendering.rs line 7). -/
noncomputable def SHADOW_BIAS : ℝ := 1e-13

/-- Embeds `Ray` (src/shape.rs): origin and direction. -/
structure Ray where
  origin : Vector3
  direction : Vector3

/-- Embeds `Hit` (src/shape.rs): parametric distance, world-space point and
surface normal of one intersection. -/
structure Hit where
  distance : ℝ
  point : Vector3
  normal : Vector3

/-- Embeds `Ray::compute_reflection_ray` (src/shape.rs lines 24-29). -/
noncomputable def Ray.compute_reflection_ray (normal : Vector3) (old_direction : Vector3)
    (point : Vector3) : Ray :=
  ⟨point + normal * SHADOW_BIAS,
   old_direction - (normal * (2 : ℝ)) * (old_direction.dot normal)⟩

/-- Embeds `Sphere` (src/shape.rs): center and radius. -/
structure Sphere where
  origin : Vector3
  radius : ℝ

namespace Sphere

/-- Embeds the local `ray_origin_to_sphere_proj` of `Sphere::intersect`
(src/shape.rs line 60): the projection of the center offset onto the ray
direction. -/
noncomputable def proj (sph : Sphere) (ray : Ray) : ℝ :=
  ((sph.origin - ray.origin).dot ray.direction)

/-- Embeds the local `sphere_center_to_proj_squared` of `Sphere::intersect`
(src/shape.rs line 61): the squared perpendicular distance from the center to
the ray line. -/
noncomputable def perp_sq (sph : Sphere) (ray : Ray) : ℝ :=
  (sph.origin - ray.origin).dot (sph.origin - ray.origin) - sph.proj ray * sph.proj ray

/-- Embeds the local `thickness` of `Sphere::intersect` (src/shape.rs
line 65). -/
noncomputable def thickness (sph : Sphere) (ray : Ray) : ℝ :=
  Real.sqrt (sph.radius * sph.radius - sph.perp_sq ray)

/-- Embeds the local `intersect_0` of `Sphere::intersect` (src/shape.rs
line 66), before the conditional swap. -/
noncomputable def t0 (sph : Sphere) (ray : Ray) : ℝ := sph.proj ray - sph.thickness ray

/-- Embeds the local `intersect_1` of `Sphere::intersect` (src/shape.rs
line 67), before the conditional swap. -/
noncomputable def t1 (sph : Sphere) (ray : Ray) : ℝ := sph.proj ray + sph.thickness ray

/-- Embeds the hit construction of `Sphere::intersect` (src/shape.rs lines
76-78 and 80-82): point along the ray at parameter `t`, outward normal. -/
noncomputable def hit_at (sph : Sphere) (ray : Ray) (t : ℝ) : Hit :=
  ⟨t, ray.origin + ray.direction * t,
   ((ray.origin + ray.direction * t) - sph.origin).normalize⟩

/-- Embeds `Sphere::intersect` (src/shape.rs lines 57-86): geometric
quadratic-free method, `swap` of the two parameters when out of order, then
the three sign cases. -/
noncomputable def intersect (sph : Sphere) (ray : Ray) : Option Hit :=
  if sph.radius * sph.radius < sph.perp_sq ray then none
  else
    let i := if sph.t1 ray < sph.t0 ray then (sph.t1 ray, sph.t0 ray)
             else (sph.t0 ray, sph.t1 ray)
    if i.1 < 0 ∧ i.2 < 0 then none
    else if 0 ≤ i.1 then some (sph.hit_at ray i.1)
    else some (sph.hit_at ray i.2)

end Sphere

/-- Embeds `Plane` (src/shape.rs): a point on the plane and its normal. -/
structure Plane where
  point : Vector3
  normal : Vector3

/-- Embeds `Plane::intersect` (src/shape.rs lines 100-112): one-sided test
`denom > 0`, then the signed distance, reported only when non-negative, with
the negated stored normal. -/
noncomputable def Plane.intersect (pl : Plane) (ray : Ray) : Option Hit :=
  if 0 < pl.normal.dot ray.direction then
    if 0 ≤ (pl.point - ray.origin).dot pl.normal / pl.normal.dot ray.direction then
      some ⟨(pl.point - ray.origin).dot pl.normal / pl.normal.dot ray.direction,
            ray.origin + ray.direction *
              ((pl.point - ray.origin).dot pl.normal / pl.normal.dot ray.direction),
            -pl.normal⟩
    else none
  else none

/-- Embeds the closed variant `Shape` (src/shape.rs). -/
inductive Shape where
  | SPHERE (s : Sphere)
  | PLANE (p : Plane)

/-- Embeds `impl Intersectable for Shape` (src/shape.rs lines 120-127). -/
noncomputable def Shape.intersect : Shape → Ray → Option Hit
  | Shape.SPHERE s, ray => s.intersect ray
  | Shape.PLANE p, ray => p.intersect ray

theorem Sphere.t0_le_t1 (sph : Sphere) (ray : Ray) : sph.t0 ray ≤ sph.t1 ray := by
  have h := Real.sqrt_nonneg (sph.radius * sph.radius - sph.perp_sq ray)
  unfold t0 t1
  unfold thickness
  linarith

/-- C5: when the squared perpendicular distance does not exceed the squared
radius, `Sphere::intersect` orders the two intersection parameters so the
first is at most the second, returns `none` when both are negative, reports
the second when only the first is negative, reports the first otherwise, and
every reported hit has a non-negative distance. -/
theorem sphere_intersect_front_back (sph : Sphere) (ray : Ray)
    (h : sph.perp_sq ray ≤ sph.radius * sph.radius) :
    sph.t0 ray ≤ sph.t1 ray ∧
    (sph.t0 ray < 0 → sph.t1 ray < 0 → sph.intersect ray = none) ∧
    (sph.t0 ray < 0 → 0 ≤ sph.t1 ray →
      sph.intersect ray = some (sph.hit_at ray (sph.t1 ray))) ∧
    (0 ≤ sph.t0 ray → sph.intersect ray = some (sph.hit_at ray (sph.t0 ray))) ∧
    (∀ hit, sph.intersect ray = some hit → 0 ≤ hit.distance) := by
  have hord := Sphere.t0_le_t1 sph ray
  have hmiss : ¬ sph.radius * sph.radius < sph.perp_sq ray := not_lt.mpr h
  have hswap : (if sph.t1 ray < sph.t0 ray then (sph.t1 ray, sph.t0 ray)
      else (sph.t0 ray, sph.t1 ray)) = (sph.t0 ray, sph.t1 ray) :=
    if_neg (not_lt.mpr hord)
  have hinter : sph.intersect ray =
      (if sph.t0 ray < 0 ∧ sph.t1 ray < 0 then none
       else if 0 ≤ sph.t0 ray then some (sph.hit_at ray (sph.t0 ray))
       else some (sph.hit_at ray (sph.t1 ray))) := by
    unfold Sphere.intersect
    rw [if_neg hmiss]
    simp only [hswap]
  refine ⟨hord, ?_, ?_, ?_, ?_⟩
  · intro h0 h1
    rw [hinter, if_pos ⟨h0, h1⟩]
  · intro h0 h1
    rw [hinter, if_neg (by intro hc; exact absurd h1 (not_le.mpr hc.2)),
      if_neg (not_le.mpr h0)]
  · intro h0
    rw [hinter, if_neg (by intro hc; exact absurd h0 (not_le.mpr hc.1)), if_pos h0]
  · intro hit hsome
    rw [hinter] at hsome
    by_cases hc : sph.t0 ray < 0 ∧ sph.t1 ray < 0
    · rw [if_pos hc] at hsome; exact absurd hsome (by simp)
    · rw [if_neg hc] at hsome
      by_cases h0 : 0 ≤ sph.t0 ray
      · rw [if_pos h0] at hsome
        have : hit = sph.hit_at ray (sph.t0 ray) := by
          exact Option.some_injective _ hsome.symm
        rw [this]; exact h0
      · rw [if_neg h0] at hsome
        have : hit = sph.hit_at ray (sph.t1 ray) := by
          exact Option.some_injective _ hsome.symm
        rw [this]
        rcases not_and_or.mp hc with hc0 | hc1
        · exact absurd (not_lt.mp hc0) (by simpa using h0)
        · exact not_lt.mp hc1

/-- The sphere and ray of the C5 witness: unit sphere at `(0,0,-5)`, ray from
the origin along `-z`. -/
def wSphere : Sphere := ⟨⟨0, 0, -5⟩, 1⟩

/-- The ray of the C5 witness. -/
def wRay : Ray := ⟨⟨0, 0, 0⟩, ⟨0, 0, -1⟩⟩

/-- C5 witness: the hypothesis holds and the ordering conclusion follows at a
concrete sphere and ray. -/
theorem sphere_intersect_front_back_witness :
    wSphere.t0 wRay ≤ wSphere.t1 wRay :=
  (sphere_intersect_front_back wSphere wRay (by
    norm_num [Sphere.perp_sq, Sphere.proj, Vector3.dot, wSphere, wRay])).1

/-- Embeds `Material` (src/rendering.rs): base color, albedo, mirror mix. -/
structure Material where
  base_color : Color
  albedo : ℝ
  reflectiveness : ℝ

/-- Embeds `DirectionalLight` (src/rendering.rs). -/
structure DirectionalLight where
  direction : Vector3
  brightness : ℝ
  color : Color

namespace DirectionalLight

/-- Embeds `DirectionalLight::get_direction`: the negated normalized stored
direction, for any point. -/
noncomputable def get_direction (l : DirectionalLight) (_point : Vector3) : Vector3 :=
  -l.direction.normalize

/-- Embeds `DirectionalLight::get_brightness`: the stored brightness, for any
point. -/
def get_brightness (l : DirectionalLight) (_point : Vector3) : ℝ := l.brightness

/-- Embeds `DirectionalLight::get_color`. -/
def get_color (l : DirectionalLight) : Color := l.color

/-- Embeds `DirectionalLight::get_distance`: `std::f64::INFINITY`, modelled as
`⊤ : WithTop ℝ`. -/
def get_distance (_l : DirectionalLight) (_point : Vector3) : WithTop ℝ := ⊤

end DirectionalLight

/-- Embeds `PointLight` (src/rendering.rs). -/
structure PointLight where
  position : Vector3
  brightness : ℝ
  color : Color

namespace PointLight

/-- Embeds `PointLight::get_direction`: the normalized offset toward the
light. -/
noncomputable def get_direction (l : PointLight) (point : Vector3) : Vector3 :=
  (l.position - point).normalize

/-- Embeds `PointLight::get_brightness` (src/rendering.rs lines 118-121):
`brightness / (4π · |position - point|²)`. -/
noncomputable def get_brightness (l : PointLight) (point : Vector3) : ℝ :=
  l.brightness / (4 * Real.pi * (l.position - point).length_sq)

/-- Embeds `PointLight::get_color`. -/
def get_color (l : PointLight) : Color := l.color

/-- Embeds `PointLight::get_distance`: the finite distance to the light,
coerced into `WithTop ℝ`. -/
noncomputable def get_distance (l : PointLight) (point : Vector3) : WithTop ℝ :=
  ((l.position - point).length : WithTop ℝ)

end PointLight

/-- Embeds the closed variant `Light` (src/rendering.rs lines 132-136). -/
inductive Light where
  | POINT (l : PointLight)
  | DIRECTIONAL (l : DirectionalLight)

namespace Light

/-- Embeds `impl LightEmitter for Light`: `get_direction` dispatch. -/
noncomputable def get_direction : Light → Vector3 → Vector3
  | Light.POINT l, point => l.get_direction point
  | Light.DIRECTIONAL l, point => l.get_direction point

/-- Embeds `impl LightEmitter for Light`: `get_brightness` dispatch. -/
noncomputable def get_brightness : Light → Vector3 → ℝ
  | Light.POINT l, point => l.get_brightness point
  | Light.DIRECTIONAL l, point => l.get_brightness point

/-- Embeds `impl LightEmitter for Light`: `get_color` dispatch. -/
def get_color : Light → Color
  | Light.POINT l => l.get_color
  | Light.DIRECTIONAL l => l.get_color

/-- Embeds `impl LightEmitter for Light`: `get_distance` dispatch. -/
noncomputable def get_distance : Light → Vector3 → WithTop ℝ
  | Light.POINT l, point => l.get_distance point
  | Light.DIRECTIONAL l, point => l.get_distance point

end Light

/-- Embeds `Renderable` (src/rendering.rs): a shape paired with a material. -/
structure Renderable where
  shape : Shape
  material : Material

/-- Embeds `Camera` (src/rendering.rs): pixel resolution and field of view. -/
structure Camera where
  width : ℕ
  height : ℕ
  fov : ℝ

/-- Embeds `Camera::compute_prime_ray` (src/rendering.rs lines 192-202).  The
three `assert!` guards are modelled by the `Option`: `none` stands for the
panic.  `to_radians` is `· * (π / 180)`. -/
noncomputable def Camera.compute_prime_ray (c : Camera) (px py : ℕ) : Option Ray :=
  if c.height ≤ c.width ∧ px ≤ c.width ∧ py ≤ c.height then
    some ⟨Vector3.zero,
      (Vector3.mk
        ((((px : ℝ) + 0.5) / (c.width : ℝ) * 2 - 1) * ((c.width : ℝ) / (c.height : ℝ)) *
          Real.tan (c.fov * (Real.pi / 180) / 2))
        ((1 - ((py : ℝ) + 0.5) / (c.height : ℝ) * 2) * Real.tan (c.fov * (Real.pi / 180) / 2))
        (-1)).normalize⟩
  else none

/-- C8: `Camera::compute_prime_ray` fails fast (modelled `none`) whenever
`width < height`, or `px > width`, or `py > height`; under the preconditions
`px ≤ width`, `py ≤ height` and `width ≥ height` no assertion fires and the
returned ray originates at `(0,0,0)`. -/
theorem compute_prime_ray_asserts (c : Camera) (px py : ℕ) :
    ((c.width < c.height ∨ c.width < px ∨ c.height < py) →
      c.compute_prime_ray px py = none) ∧
    (c.height ≤ c.width → px ≤ c.width → py ≤ c.height →
      ∃ d : Vector3, c.compute_prime_ray px py = some ⟨Vector3.zero, d⟩) := by
  constructor
  · intro hbad
    unfold Camera.compute_prime_ray
    rw [if_neg]
    intro hc
    rcases hbad with h | h | h
    · exact absurd hc.1 (by omega)
    · exact absurd hc.2.1 (by omega)
    · exact absurd hc.2.2 (by omega)
  · intro h1 h2 h3
    unfold Camera.compute_prime_ray
    rw [if_pos ⟨h1, h2, h3⟩]
    exact ⟨_, rfl⟩

/-- Embeds `Scene` (src/rendering.rs lines 205-211). -/
structure Scene where
  camera : Camera
  elements : List Renderable
  lights : List Light
  sky_color : Color

/-- Embeds `std::f64::MAX`, the initial `min_distance` of `Scene::trace`: the
largest finite `f64`, exactly `2^1024 - 2^971`. -/
noncomputable def f64MAX : ℝ := 2 ^ (1024 : ℕ) - 2 ^ (971 : ℕ)

/-- Embeds the loop body of `Scene::trace` (src/rendering.rs lines 221-228);
the fold state is the pair `(min_distance, object)`. -/
noncomputable def traceStep (ray : Ray) (acc : ℝ × Option (Renderable × Hit))
    (renderable : Renderable) : ℝ × Option (Renderable × Hit) :=
  match renderable.shape.intersect ray with
  | some hit => if hit.distance < acc.1 then (hit.distance, some (renderable, hit)) else acc
  | none => acc

/-- Embeds `Scene::trace` (src/rendering.rs lines 218-230): linear scan with
`min_distance` starting at `std::f64::MAX` and strict improvement. -/
noncomputable def Scene.trace (s : Scene) (ray : Ray) : Option (Renderable × Hit) :=
  (s.elements.foldl (traceStep ray) (f64MAX, none)).2

/-- Specification-side helper: the (renderable, hit) pairs whose shapes
intersect the ray, in iteration order. -/
noncomputable def hitsOf (l : List Renderable) (ray : Ray) : List (Renderable × Hit) :=
  l.filterMap (fun renderable => (renderable.shape.intersect ray).map (fun hit => (renderable, hit)))

/-- Specification-side helper: `hitsOf` over a scene's renderables. -/
noncomputable def validHits (s : Scene) (ray : Ray) : List (Renderable × Hit) :=
  hitsOf s.elements ray

/-- The `Scene::trace` fold step restated on the intersecting pairs only. -/
noncomputable def minStep (acc : ℝ × Option (Renderable × Hit)) (p : Renderable × Hit) :
    ℝ × Option (Renderable × Hit) :=
  if p.2.distance < acc.1 then (p.2.distance, some p) else acc

theorem foldl_traceStep (ray : Ray) (l : List Renderable) :
    ∀ acc, l.foldl (traceStep ray) acc = (hitsOf l ray).foldl minStep acc := by
  induction l with
  | nil => intro acc; rfl
  | cons r rs ih =>
    intro acc
    rw [List.foldl_cons]
    cases hs : r.shape.intersect ray with
    | none =>
      have h1 : traceStep ray acc r = acc := by simp [traceStep, hs]
      have h2 : hitsOf (r :: rs) ray = hitsOf rs ray := by simp [hitsOf, hs]
      rw [h1, h2, ih]
    | some hit =>
      have h1 : traceStep ray acc r = minStep acc (r, hit) := by
        simp [traceStep, minStep, hs]
      have h2 : hitsOf (r :: rs) ray = (r, hit) :: hitsOf rs ray := by
        simp [hitsOf, hs]
      rw [h1, h2, List.foldl_cons, ih]

/-- Specification-side helper for C1: the pair at which the strictly-improving
running minimum of the fold ends up, starting from bound `d`. -/
noncomputable def firstStrictMin (d : ℝ) : List (Renderable × Hit) → Option (Renderable × Hit)
  | [] => none
  | p :: ps =>
    if p.2.distance < d then some ((firstStrictMin p.2.distance ps).getD p)
    else firstStrictMin d ps

theorem foldl_minStep_none (l : List (Renderable × Hit)) :
    ∀ d (o : Option (Renderable × Hit)), firstStrictMin d l = none →
      l.foldl minStep (d, o) = (d, o) := by
  induction l with
  | nil => intro d o _; rfl
  | cons p ps ih =>
    intro d o h
    by_cases hp : p.2.distance < d
    · exact absurd h (by simp [firstStrictMin, hp])
    · have hrest : firstStrictMin d ps = none := by
        simpa [firstStrictMin, hp] using h
      rw [List.foldl_cons, show minStep (d, o) p = (d, o) from if_neg hp, ih d o hrest]

theorem foldl_minStep_some (l : List (Renderable × Hit)) :
    ∀ d (o : Option (Renderable × Hit)) p, firstStrictMin d l = some p →
      l.foldl minStep (d, o) = (p.2.distance, some p) := by
  induction l with
  | nil => intro d o p h; exact absurd h (by simp [firstStrictMin])
  | cons x xs ih =>
    intro d o p h
    by_cases hx : x.2.distance < d
    · have hx' : p = (firstStrictMin x.2.distance xs).getD x := by
        have := h
        simp only [firstStrictMin, if_pos hx, Option.some_inj] at this
        exact this.symm
      rw [List.foldl_cons, show minStep (d, o) x = (x.2.distance, some x) from if_pos hx]
      cases hin : firstStrictMin x.2.distance xs with
      | none =>
        rw [foldl_minStep_none xs x.2.distance (some x) hin]
        rw [hx', hin]
        rfl
      | some q =>
        rw [ih x.2.distance (some x) q hin, hx', hin]
        rfl
    · have hrest : firstStrictMin d xs = some p := by
        simpa [firstStrictMin, hx] using h
      rw [List.foldl_cons, show minStep (d, o) x = (d, o) from if_neg hx,
        ih d o p hrest]

theorem fsm_none_iff (l : List (Renderable × Hit)) :
    ∀ d, firstStrictMin d l = none ↔ ∀ p ∈ l, d ≤ p.2.distance := by
  induction l with
  | nil => intro d; simp [firstStrictMin]
  | cons p ps ih =>
    intro d
    by_cases hp : p.2.distance < d
    · constructor
      · intro h; exact absurd h (by simp [firstStrictMin, hp])
      · intro h; exact absurd (h p (List.mem_cons_self p ps)) (not_le.mpr hp)
    · have hd : d ≤ p.2.distance := not_lt.mp hp
      constructor
      · intro h q hq
        rcases List.mem_cons.mp hq with rfl | hq'
        · exact hd
        · exact ((ih d).mp (by simpa [firstStrictMin, hp] using h)) q hq'
      · intro h
        simp only [firstStrictMin, if_neg hp]
        exact (ih d).mpr (fun q hq => h q (List.mem_cons_of_mem p hq))

theorem fsm_some (l : List (Renderable × Hit)) :
    ∀ d p, firstStrictMin d l = some p →
      p.2.distance < d ∧ (∀ q ∈ l, p.2.distance ≤ q.2.distance) ∧
      ∃ l₁ l₂, l = l₁ ++ p :: l₂ ∧ ∀ q ∈ l₁, p.2.distance < q.2.distance := by
  induction l with
  | nil => intro d p h; exact absurd h (by simp [firstStrictMin])
  | cons x xs ih =>
    intro d p h
    by_cases hx : x.2.distance < d
    · have hx' : p = (firstStrictMin x.2.distance xs).getD x := by
        have := h
        simp only [firstStrictMin, if_pos hx, Option.some_inj] at this
        exact this.symm
      cases hin : firstStrictMin x.2.distance xs with
      | none =>
        have hpx : p = x := by rw [hx', hin]; rfl
        subst hpx
        refine ⟨hx, ?_, [], xs, by simp, by simp⟩
        intro q hq
        rcases List.mem_cons.mp hq with rfl | hq'
        · exact le_refl _
        · exact (fsm_none_iff xs p.2.distance).mp hin q hq'
      | some q' =>
        have hpq : p = q' := by rw [hx', hin]; rfl
        subst hpq
        obtain ⟨h1, h2, l₁, l₂, heq, hstrict⟩ := ih x.2.distance p hin
        refine ⟨lt_trans h1 hx, ?_, x :: l₁, l₂, by rw [heq]; rfl, ?_⟩
        · intro q hq
          rcases List.mem_cons.mp hq with rfl | hq'
          · exact le_of_lt h1
          · exact h2 q hq'
        · intro q hq
          rcases List.mem_cons.mp hq with rfl | hq'
          · exact h1
          · exact hstrict q hq'
    · have hrest : firstStrictMin d xs = some p := by
        simpa [firstStrictMin, hx] using h
      obtain ⟨h1, h2, l₁, l₂, heq, hstrict⟩ := ih d p hrest
      have hxd : d ≤ x.2.distance := not_lt.mp hx
      refine ⟨h1, ?_, x :: l₁, l₂, by rw [heq]; rfl, ?_⟩
      · intro q hq
        rcases List.mem_cons.mp hq with rfl | hq'
        · exact le_of_lt (lt_of_lt_of_le h1 hxd)
        · exact h2 q hq'
      · intro q hq
        rcases List.mem_cons.mp hq with rfl | hq'
        · exact lt_of_lt_of_le h1 hxd
        · exact hstrict q hq'

/-- C1 (amended): `Scene::trace` returns `none` if and only if every
intersecting shape's hit distance is at least `f64::MAX` (in particular when
no shape intersects); when it returns a pair, that hit's distance is below
`f64::MAX`, is minimal among all intersecting hits, and the pair is the first
one in iteration order attaining the minimum (ties resolved in favor of the
first-encountered renderable). -/
theorem trace_min_spec (s : Scene) (ray : Ray) :
    (s.trace ray = none ↔ ∀ p ∈ validHits s ray, f64MAX ≤ p.2.distance) ∧
    (∀ rend hit, s.trace ray = some (rend, hit) →
      hit.distance < f64MAX ∧
      (∀ p ∈ validHits s ray, hit.distance ≤ p.2.distance) ∧
      ∃ l₁ l₂, validHits s ray = l₁ ++ (rend, hit) :: l₂ ∧
        ∀ p ∈ l₁, hit.distance < p.2.distance) := by
  have hfold : s.elements.foldl (traceStep ray) (f64MAX, none) =
      (validHits s ray).foldl minStep (f64MAX, none) :=
    foldl_traceStep ray s.elements _
  cases hfsm : firstStrictMin f64MAX (validHits s ray) with
  | none =>
    have htr : s.trace ray = none := by
      unfold Scene.trace
      rw [hfold, foldl_minStep_none _ _ _ hfsm]
    constructor
    · rw [htr]
      constructor
      · intro _; exact (fsm_none_iff _ _).mp hfsm
      · intro _; rfl
    · intro rend hit h
      rw [htr] at h
      exact absurd h (by simp)
  | some p =>
    have htr : s.trace ray = some p := by
      unfold Scene.trace
      rw [hfold, foldl_minStep_some _ _ _ _ hfsm]
    obtain ⟨h1, h2, l₁, l₂, heq, hstrict⟩ := fsm_some _ _ _ hfsm
    constructor
    · rw [htr]
      constructor
      · intro h; exact absurd h (by simp)
      · intro hall
        have hmem : p ∈ validHits s ray := by
          rw [heq]; exact List.mem_append_right l₁ (List.mem_cons_self _ _)
        exact absurd (hall p hmem) (not_le.mpr h1)
    · intro rend hit h
      rw [htr] at h
      have hp : p = (rend, hit) := Option.some_inj.mp h
      subst hp
      exact ⟨h1, h2, l₁, l₂, heq, hstrict⟩

/-- The plane of the C1 counterexample: a one-sided plane far down the `-z`
axis. -/
noncomputable def cexPlane : Plane := ⟨⟨0, 0, -(2 ^ (1000 : ℕ))⟩, ⟨0, 0, -1⟩⟩

/-- The ray of the C1 counterexample: unit direction almost perpendicular to
the plane's normal, so the exact hit distance exceeds `f64::MAX`. -/
noncomputable def cexRay : Ray :=
  ⟨⟨0, 0, 0⟩,
   ⟨(2 ^ (200 : ℕ) - 1) / (2 ^ (200 : ℕ) + 1), 0,
    -(2 ^ (101 : ℕ) / (2 ^ (200 : ℕ) + 1))⟩⟩

/-- The renderable of the C1 counterexample. -/
noncomputable def cexRenderable : Renderable := ⟨Shape.PLANE cexPlane, ⟨⟨0, 0, 0, 0⟩, 0, 0⟩⟩

/-- The scene of the C1 counterexample. -/
noncomputable def cexScene : Scene := ⟨⟨1, 1, 90⟩, [cexRenderable], [], ⟨0, 0, 0, 0⟩⟩

/-- The exact hit distance of the C1 counterexample,
`2^1099 + 2^899 > f64::MAX`. -/
noncomputable def cexD : ℝ := 2 ^ (899 : ℕ) * (2 ^ (200 : ℕ) + 1)

/-- C1 counterexample: the scene's only renderable intersects the
(unit-direction) ray, at exact distance `2^1099 + 2^899 > f64::MAX`, yet
`Scene::trace` returns `none`: the claimed "`none` iff no shape intersects"
fails at this input because `min_distance` starts at the sentinel
`std::f64::MAX` and only strictly smaller hit distances are kept. -/
theorem trace_none_despite_hit :
    cexScene.trace cexRay = none ∧ validHits cexScene cexRay ≠ [] ∧
      cexRay.direction.length_sq = 1 := by
  have hne : ((2 : ℝ) ^ (200 : ℕ) + 1) ≠ 0 := by positivity
  have hdenom : (0 : ℝ) < cexPlane.normal.dot cexRay.direction := by
    simp only [cexPlane, cexRay, Vector3.dot]
    norm_num
  have hdval : (cexPlane.point - cexRay.origin).dot cexPlane.normal /
      cexPlane.normal.dot cexRay.direction = cexD := by
    simp only [cexPlane, cexRay, cexD, Vector3.dot, Vector3.sub_def]
    field_simp
    ring
  have hint : cexRenderable.shape.intersect cexRay =
      some ⟨cexD, cexRay.origin + cexRay.direction * cexD, -cexPlane.normal⟩ := by
    show cexPlane.intersect cexRay =
      some ⟨cexD, cexRay.origin + cexRay.direction * cexD, -cexPlane.normal⟩
    unfold Plane.intersect
    rw [if_pos hdenom, hdval, if_pos (by unfold cexD; positivity)]
  have hbig : f64MAX ≤ cexD := by
    unfold f64MAX cexD
    have heq : (2 : ℝ) ^ (899 : ℕ) * (2 ^ (200 : ℕ) + 1) =
        2 ^ (1099 : ℕ) + 2 ^ (899 : ℕ) := by ring
    rw [heq]
    have h1 : (2 : ℝ) ^ (1024 : ℕ) ≤ 2 ^ (1099 : ℕ) :=
      pow_le_pow_right₀ (by norm_num) (by norm_num)
    have h2 : (0 : ℝ) < 2 ^ (971 : ℕ) := by positivity
    have h3 : (0 : ℝ) < 2 ^ (899 : ℕ) := by positivity
    linarith
  have hstep : traceStep cexRay (f64MAX, none) cexRenderable = (f64MAX, none) := by
    simp [traceStep, hint]
    exact hbig
  refine ⟨?_, ?_, ?_⟩
  · show (cexScene.elements.foldl (traceStep cexRay) (f64MAX, none)).2 = none
    have hel : cexScene.elements = [cexRenderable] := rfl
    rw [hel, List.foldl_cons, hstep, List.foldl_nil]
  · show hitsOf cexScene.elements cexRay ≠ []
    have hel : cexScene.elements = [cexRenderable] := rfl
    rw [hel]
    simp [hitsOf, hint]
  · simp only [cexRay, Vector3.length_sq]
    field_simp
    ring

/-- Embeds the local `light_ray` of `Scene::get_color` (src/rendering.rs line
244): origin pushed off the surface by `SHADOW_BIAS` along the normal,
direction toward the light. -/
noncomputable def lightRay (hit : Hit) (light : Light) : Ray :=
  ⟨hit.point + hit.normal * SHADOW_BIAS, light.get_direction hit.point⟩

/-- Embeds the shadow test of `Scene::get_color` (src/rendering.rs lines
243-249): the light's brightness at the hit point, zeroed when the shadow ray
hits something at distance at most the light's reported distance. -/
noncomputable def Scene.shadowed_brightness (s : Scene) (hit : Hit) (light : Light) : ℝ :=
  match s.trace (lightRay hit light) with
  | some q =>
    if (q.2.distance : WithTop ℝ) ≤ light.get_distance hit.point then 0
    else light.get_brightness hit.point
  | none => light.get_brightness hit.point

/-- Embeds one iteration of the light loop of `Scene::get_color`
(src/rendering.rs lines 241-254): the `(r, g, b)` amounts added to the running
`color_r`, `color_g`, `color_b` for one light, with `light_power` the clamped
Lambert factor times the (possibly shadow-zeroed) brightness and
`amount_reflected = albedo / π`. -/
noncomputable def Scene.light_contribution (s : Scene) (renderable : Renderable) (hit : Hit)
    (light : Light) : ℝ × ℝ × ℝ :=
  ((light.get_color.r : ℝ) / 255 *
      (max (hit.normal.dot (light.get_direction hit.point)) 0 *
        s.shadowed_brightness hit light) *
      (renderable.material.albedo / Real.pi) *
      ((renderable.material.base_color.r : ℝ) / 255),
   (light.get_color.g : ℝ) / 255 *
      (max (hit.normal.dot (light.get_direction hit.point)) 0 *
        s.shadowed_brightness hit light) *
      (renderable.material.albedo / Real.pi) *
      ((renderable.material.base_color.g : ℝ) / 255),
   (light.get_color.b : ℝ) / 255 *
      (max (hit.normal.dot (light.get_direction hit.point)) 0 *
        s.shadowed_brightness hit light) *
      (renderable.material.albedo / Real.pi) *
      ((renderable.material.base_color.b : ℝ) / 255))

/-- C9: `PointLight::get_brightness` follows an inverse-square law with a 4π
solid-angle factor: the brightness received at `p` (through the `Light`
dispatch) is `brightness / (4 · π · |position - p|²)`. -/
theorem point_light_brightness_inverse_square (l : PointLight) (p : Vector3) :
    Light.get_brightness (Light.POINT l) p =
      l.brightness / (4 * Real.pi * (l.position - p).length ^ 2) := by
  show l.get_brightness p = _
  unfold PointLight.get_brightness
  rw [Vector3.length, Real.sq_sqrt (Vector3.length_sq_nonneg _)]

/-- C10: `DirectionalLight::get_distance` is positive infinity (`⊤` in the
model) for every point, so in `Scene::get_color` a directional light's
brightness is zeroed whenever the shadow ray hits any renderable at all:
every finite hit distance is at most infinity. -/
theorem directional_light_distance_infinite :
    (∀ (l : DirectionalLight) (p : Vector3),
      Light.get_distance (Light.DIRECTIONAL l) p = ⊤) ∧
    (∀ (s : Scene) (hit : Hit) (l : DirectionalLight) (q : Renderable × Hit),
      s.trace (lightRay hit (Light.DIRECTIONAL l)) = some q →
      s.shadowed_brightness hit (Light.DIRECTIONAL l) = 0) := by
  constructor
  · intro l p; rfl
  · intro s hit l q htr
    unfold Scene.shadowed_brightness
    rw [htr]
    dsimp only
    have hd : Light.get_distance (Light.DIRECTIONAL l) hit.point = ⊤ := rfl
    rw [hd, if_pos le_top]

/-- C4: a light whose shadow ray (origin pushed off the surface by
`SHADOW_BIAS` along the normal) hits some renderable strictly closer than the
light's reported distance has its brightness zeroed and contributes nothing
to the diffuse sum for that point. -/
theorem occluded_light_contributes_nothing (s : Scene) (renderable : Renderable)
    (hit : Hit) (light : Light) (q : Renderable × Hit)
    (htr : s.trace (lightRay hit light) = some q)
    (hcloser : (q.2.distance : WithTop ℝ) < light.get_distance hit.point) :
    s.shadowed_brightness hit light = 0 ∧
    s.light_contribution renderable hit light = (0, 0, 0) := by
  have hb : s.shadowed_brightness hit light = 0 := by
    unfold Scene.shadowed_brightness
    rw [htr]
    dsimp only
    rw [if_pos (le_of_lt hcloser)]
  refine ⟨hb, ?_⟩
  unfold Scene.light_contribution
  rw [hb]
  norm_num

/-- Embeds the per-channel accumulation loop of `Scene::get_color`
(src/rendering.rs lines 237-254): `color_r/g/b` summed over all lights. -/
noncomputable def Scene.diffuse_sum (s : Scene) (renderable : Renderable) (hit : Hit) :
    ℝ × ℝ × ℝ :=
  s.lights.foldl (fun acc light =>
    (acc.1 + (s.light_contribution renderable hit light).1,
     acc.2.1 + (s.light_contribution renderable hit light).2.1,
     acc.2.2 + (s.light_contribution renderable hit light).2.2)) (0, 0, 0)

/-- Embeds Rust's `as u8` cast from `f64`: truncate toward zero, saturating at
the bounds `0` and `255`. -/
noncomputable def f64_as_u8 (x : ℝ) : ℕ := (min 255 (max 0 ⌊x⌋)).toNat

/-- Embeds the clamping `color_*.min(1.0).max(0.0)` of `Scene::get_color`
(src/rendering.rs lines 255-257). -/
noncomputable def Scene.shade_rgb (s : Scene) (renderable : Renderable) (hit : Hit) :
    ℝ × ℝ × ℝ :=
  (max (min (s.diffuse_sum renderable hit).1 1) 0,
   max (min (s.diffuse_sum renderable hit).2.1 1) 0,
   max (min (s.diffuse_sum renderable hit).2.2 1) 0)

/-- Embeds `Color::new((color_r * 255.0) as u8, ..., 255)` of
`Scene::get_color` (src/rendering.rs lines 264 and 269). -/
noncomputable def rgbColor (c : ℝ × ℝ × ℝ) : Color :=
  ⟨f64_as_u8 (c.1 * 255), f64_as_u8 (c.2.1 * 255), f64_as_u8 (c.2.2 * 255), 255⟩

/-- Embeds `Scene::get_color` (src/rendering.rs lines 232-274): no hit gives
the sky color; a hit with exhausted recursion budget gives black; otherwise
the clamped diffuse sum, and for a reflective material the saturating sum of
the scaled diffuse color and the recursively shaded reflection ray at
`depth + 1`. -/
noncomputable def Scene.get_color (s : Scene) (ray : Ray)
    (hit_obj : Option (Renderable × Hit)) (depth max_depth : ℕ) : Color :=
  match hit_obj with
  | some (renderable, hit) =>
    if h : max_depth ≤ depth then Color.black
    else
      if 0 < renderable.material.reflectiveness then
        (rgbColor ((s.shade_rgb renderable hit).1 * (1 - renderable.material.reflectiveness),
            (s.shade_rgb renderable hit).2.1 * (1 - renderable.material.reflectiveness),
            (s.shade_rgb renderable hit).2.2 * (1 - renderable.material.reflectiveness))).add_assign
          (s.get_color (Ray.compute_reflection_ray hit.normal ray.direction hit.point)
            (s.trace (Ray.compute_reflection_ray hit.normal ray.direction hit.point))
            (depth + 1) max_depth)
      else rgbColor (s.shade_rgb renderable hit)
  | none => s.sky_color
termination_by max_depth - depth
decreasing_by omega

/-- Fuel-indexed unfolding of `Scene::get_color`: identical body, but the
recursion consumes one unit of `fuel` per reflection bounce and gives up
(returning black) when the fuel is exhausted before the depth guard fires. -/
noncomputable def Scene.get_color_fuel (s : Scene) (fuel : ℕ) (ray : Ray)
    (hit_obj : Option (Renderable × Hit)) (depth max_depth : ℕ) : Color :=
  match hit_obj with
  | some (renderable, hit) =>
    if max_depth ≤ depth then Color.black
    else
      match fuel with
      | 0 => Color.black
      | f + 1 =>
        if 0 < renderable.material.reflectiveness then
          (rgbColor ((s.shade_rgb renderable hit).1 * (1 - renderable.material.reflectiveness),
              (s.shade_rgb renderable hit).2.1 * (1 - renderable.material.reflectiveness),
              (s.shade_rgb renderable hit).2.2 * (1 - renderable.material.reflectiveness))).add_assign
            (s.get_color_fuel f
              (Ray.compute_reflection_ray hit.normal ray.direction hit.point)
              (s.trace (Ray.compute_reflection_ray hit.normal ray.direction hit.point))
              (depth + 1) max_depth)
        else rgbColor (s.shade_rgb renderable hit)
  | none => s.sky_color

/-- C3: `Scene::get_color` with no hit object returns exactly the scene's sky
color, unmodified in all four channels, for every depth and budget. -/
theorem get_color_no_hit_sky (s : Scene) (ray : Ray) (depth max_depth : ℕ) :
    s.get_color ray none depth max_depth = s.sky_color := by
  rw [Scene.get_color]

/-- C2: `Scene::get_color` on a present hit with `depth ≥ max_depth` returns
pure black `(0,0,0,255)`, regardless of lights, material or geometry. -/
theorem get_color_depth_exhausted_black (s : Scene) (ray : Ray)
    (renderable : Renderable) (hit : Hit) (depth max_depth : ℕ)
    (h : max_depth ≤ depth) :
    s.get_color ray (some (renderable, hit)) depth max_depth = Color.black := by
  rw [Scene.get_color]
  rw [dif_pos h]

/-- C6: the recursion of `Scene::get_color` terminates: unfolding the body at
most `max_depth - depth` times already reaches the answer (each recursive call
is at `depth + 1`, the guard stops it once `depth ≥ max_depth`, and a missing
hit returns the sky color with no recursion), so the function is total. -/
theorem get_color_fuel_converges (fuel : ℕ) (s : Scene) (ray : Ray)
    (hit_obj : Option (Renderable × Hit)) (depth max_depth : ℕ)
    (hfuel : max_depth - depth ≤ fuel) :
    s.get_color_fuel fuel ray hit_obj depth max_depth =
      s.get_color ray hit_obj depth max_depth := by
  induction fuel generalizing ray hit_obj depth with
  | zero =>
    cases hit_obj with
    | none => rw [Scene.get_color, Scene.get_color_fuel]
    | some p =>
      obtain ⟨renderable, hit⟩ := p
      have hd : max_depth ≤ depth := by omega
      rw [Scene.get_color, Scene.get_color_fuel]
      rw [if_pos hd, dif_pos hd]
  | succ f ih =>
    cases hit_obj with
    | none => rw [Scene.get_color, Scene.get_color_fuel]
    | some p =>
      obtain ⟨renderable, hit⟩ := p
      by_cases hd : max_depth ≤ depth
      · rw [Scene.get_color, Scene.get_color_fuel, if_pos hd, dif_pos hd]
      · rw [Scene.get_color, Scene.get_color_fuel, if_neg hd, dif_neg hd]
        rw [ih _ _ (depth + 1) (by omega)]

/-- Material shared by the concrete witness scenes. -/
def wMaterial : Material := ⟨⟨100, 100, 100, 255⟩, 1, 0⟩

/-- Renderable of the C2 witness. -/
def wRenderable : Renderable := ⟨Shape.SPHERE ⟨⟨0, 0, -5⟩, 1⟩, wMaterial⟩

/-- Hit record shared by the concrete witnesses. -/
def wHit : Hit := ⟨1, ⟨0, 0, 0⟩, ⟨0, 0, 1⟩⟩

/-- Scene of the C2 and C6 witnesses: no elements, no lights. -/
def wScene : Scene := ⟨⟨2, 2, 90⟩, [], [], ⟨10, 20, 30, 40⟩⟩

/-- C2 witness: at a concrete scene, ray and hit with `depth = 3 ≥ 2 =
max_depth`, the color is black. -/
theorem get_color_depth_exhausted_black_witness :
    wScene.get_color wRay (some (wRenderable, wHit)) 3 2 = Color.black :=
  get_color_depth_exhausted_black wScene wRay wRenderable wHit 3 2 (by norm_num)

/-- C6 witness: at a concrete scene and ray, two units of fuel already reach
the value of `Scene::get_color` at `depth = 0`, `max_depth = 2`. -/
theorem get_color_fuel_converges_witness :
    wScene.get_color_fuel 2 wRay none 0 2 = wScene.get_color wRay none 0 2 :=
  get_color_fuel_converges 2 wScene wRay none 0 2 (by norm_num)

/-- Directional light of the C4 witness, shining along `-z`. -/
def owLight : Light := Light.DIRECTIONAL ⟨⟨0, 0, -1⟩, 5, ⟨255, 255, 255, 255⟩⟩

/-- Occluding plane of the C4 witness, between the shaded point and the
light. -/
def owPlane : Plane := ⟨⟨0, 0, 5⟩, ⟨0, 0, 1⟩⟩

/-- Renderable of the C4 witness. -/
def owRenderable : Renderable := ⟨Shape.PLANE owPlane, wMaterial⟩

/-- Scene of the C4 witness. -/
def owScene : Scene := ⟨⟨2, 2, 90⟩, [owRenderable], [owLight], ⟨0, 0, 0, 255⟩⟩

/-- C4 witness: in the concrete occluded scene the shadow ray hits the plane
closer than the (infinitely distant) directional light, so that light's
brightness and contribution vanish. -/
theorem occluded_light_contributes_nothing_witness :
    owScene.shadowed_brightness wHit owLight = 0 ∧
    owScene.light_contribution owRenderable wHit owLight = (0, 0, 0) := by
  have hdir : Light.get_direction owLight wHit.point = ⟨0, 0, 1⟩ := by
    show -(Vector3.normalize ⟨0, 0, -1⟩) = _
    unfold Vector3.normalize Vector3.length Vector3.length_sq Vector3.scale
    norm_num [Real.sqrt_one]
  have hlr : lightRay wHit owLight = ⟨⟨0, 0, 1e-13⟩, ⟨0, 0, 1⟩⟩ := by
    unfold lightRay SHADOW_BIAS
    rw [hdir]
    show Ray.mk (Vector3.add wHit.point (Vector3.scale ⟨0, 0, 1⟩ 1e-13)) ⟨0, 0, 1⟩ = _
    unfold Vector3.add Vector3.scale wHit
    norm_num
  have hex : ∃ h0, owRenderable.shape.intersect (lightRay wHit owLight) = some h0 ∧
      h0.distance < f64MAX := by
    show ∃ h0, owPlane.intersect (lightRay wHit owLight) = some h0 ∧ h0.distance < f64MAX
    rw [hlr]
    unfold Plane.intersect
    rw [if_pos (by unfold owPlane; simp only [Vector3.dot]; norm_num),
      if_pos (by unfold owPlane; simp only [Vector3.dot, Vector3.sub_def]; norm_num)]
    refine ⟨_, rfl, ?_⟩
    show (owPlane.point - Ray.origin ⟨⟨0, 0, 1e-13⟩, ⟨0, 0, 1⟩⟩).dot owPlane.normal /
        owPlane.normal.dot (Ray.direction ⟨⟨0, 0, 1e-13⟩, ⟨0, 0, 1⟩⟩) < f64MAX
    unfold owPlane f64MAX
    simp only [Vector3.dot, Vector3.sub_def]
    norm_num
  obtain ⟨h0, hi, hlt⟩ := hex
  have htr : owScene.trace (lightRay wHit owLight) = some (owRenderable, h0) := by
    show (List.foldl (traceStep (lightRay wHit owLight)) (f64MAX, none)
      owScene.elements).2 = _
    have hel : owScene.elements = [owRenderable] := rfl
    rw [hel, List.foldl_cons, List.foldl_nil]
    simp [traceStep, hi, hlt]
  have htop : Light.get_distance owLight wHit.point = ⊤ := rfl
  exact occluded_light_contributes_nothing owScene owRenderable wHit owLight
    (owRenderable, h0) htr (by rw [htop]; exact WithTop.coe_lt_top _)

end Raytracer
